import Mathlib

/-!
Verification of the pymel repository's scroll-field reporter plugin
(src/misc/pymelScrollFieldReporter.py) and environment-variable helpers
(src/pymel/util/shell.py), via a shallow embedding of the Python code.

Python strings are modelled as `List Char`; Python string methods
(`split`, `join`, `rfind`, negative slicing) are given their exact
Python semantics below.  External functions owned by the host
application or by modules outside this repository (`mel2pyStr`,
`encodeString`, `MGlobal.executeCommand`) are parameters of the model.
-/

/-- Python strings, modelled as lists of characters. -/
abbrev Str := List Char

/-- Convert a Lean string literal to the `Str` model. -/
def str (s : String) : Str := s.data

/-- Python `s.split(sep)` for a single-character separator: splitting the
empty string yields `[""]`, and every separator occurrence produces a
boundary, so `":".split(":") == ["", ""]`. -/
def pySplit (sep : Char) : Str → List Str
  | [] => [[]]
  | c :: rest =>
    if c = sep then [] :: pySplit sep rest
    else
      match pySplit sep rest with
      | [] => [[c]]
      | h :: t => (c :: h) :: t

/-- Python `sep.join(parts)` for a single-character separator. -/
def pyJoin (sep : Char) : List Str → Str
  | [] => []
  | [x] => x
  | x :: y :: rest => x ++ sep :: pyJoin sep (y :: rest)

/-- Python `s.rfind(c)`: the highest index at which `c` occurs in `s`,
or `-1` when `c` does not occur. -/
def pyRfind (s : Str) (c : Char) : Int :=
  match s with
  | [] => -1
  | x :: rest =>
    let r := pyRfind rest c
    if r ≥ 0 then r + 1
    else if x = c then 0 else -1

/-- Python `l[-n:]`: for `n = 0` this is `l[0:] = l`, otherwise the last
`n` elements (the whole list when `n ≥ len(l)`). -/
def pyNegSlice {α : Type} (n : Nat) (l : List α) : List α :=
  if n = 0 then l else l.drop (l.length - n)

/-!
## Data model of pymelScrollFieldReporter.py

`OpenMaya.MCommandMessage.MessageType` is the seven-value host enum
`kHistory, kDisplay, kInfo, kWarning, kError, kResult, kStackTrace`
(values 0..6), modelled as `Fin 7`.
-/

def kHistory : Fin 7 := 0

def kDisplay : Fin 7 := 1

def kInfo : Fin 7 := 2

def kWarning : Fin 7 := 3

def kError : Fin 7 := 4

def kResult : Fin 7 := 5

def kStackTrace : Fin 7 := 6

/-- `kMel = 'mel'`. -/
def kMel : Str := str "mel"

/-- `kPython = 'python'`. -/
def kPython : Str := str "python"

/-- The module-level list
`filterFlagNames = ['', 'suppressPrintouts', 'suppressInfo',
'suppressWarnings', 'suppressErrors', 'suppressResults',
'suppressStackTrace']`. -/
def filterFlagNames : List String :=
  ["", "suppressPrintouts", "suppressInfo", "suppressWarnings",
   "suppressErrors", "suppressResults", "suppressStackTrace"]

/-- A reporter's `self.filters` dictionary.  Its key set is fixed by
`Reporter.__init__`; `convertToPython` and the suppress entries are
booleans, `filterSourceType` is a string. -/
structure Filters where
  convertToPython : Bool
  filterSourceType : Str
  suppressPrintouts : Bool
  suppressInfo : Bool
  suppressWarnings : Bool
  suppressErrors : Bool
  suppressResults : Bool
  suppressStackTrace : Bool
deriving Repr, DecidableEq

/-- Python `self.filters.get(key, False)` for the names occurring in
`filterFlagNames`: the empty name is not a key of the dictionary, so it
yields the default `False`. -/
def Filters.getFlag (f : Filters) (key : String) : Bool :=
  if key = "suppressPrintouts" then f.suppressPrintouts
  else if key = "suppressInfo" then f.suppressInfo
  else if key = "suppressWarnings" then f.suppressWarnings
  else if key = "suppressErrors" then f.suppressErrors
  else if key = "suppressResults" then f.suppressResults
  else if key = "suppressStackTrace" then f.suppressStackTrace
  else false

/-- The default filter dictionary set by `Reporter.__init__`. -/
def defaultFilters : Filters :=
  { convertToPython := false
    filterSourceType := []
    suppressPrintouts := false
    suppressInfo := false
    suppressWarnings := false
    suppressErrors := false
    suppressResults := false
    suppressStackTrace := false }

/-- A keyword-argument dictionary passed to `Reporter.setFilters`: each
key of the filter dictionary is either absent (`none`) or mapped to a
new value. -/
structure FilterUpdate where
  convertToPython : Option Bool := none
  filterSourceType : Option Str := none
  suppressPrintouts : Option Bool := none
  suppressInfo : Option Bool := none
  suppressWarnings : Option Bool := none
  suppressErrors : Option Bool := none
  suppressResults : Option Bool := none
  suppressStackTrace : Option Bool := none
deriving Repr, DecidableEq

/-- Python `self.filters.update(kwargs)` over the fixed key set. -/
def Filters.update (f : Filters) (u : FilterUpdate) : Filters :=
  { convertToPython := u.convertToPython.getD f.convertToPython
    filterSourceType := u.filterSourceType.getD f.filterSourceType
    suppressPrintouts := u.suppressPrintouts.getD f.suppressPrintouts
    suppressInfo := u.suppressInfo.getD f.suppressInfo
    suppressWarnings := u.suppressWarnings.getD f.suppressWarnings
    suppressErrors := u.suppressErrors.getD f.suppressErrors
    suppressResults := u.suppressResults.getD f.suppressResults
    suppressStackTrace := u.suppressStackTrace.getD f.suppressStackTrace }

/-- One buffered line `[messageType, sourceType, nativeMsg, convertedMsg]`
as built by `cmdCallback`.  The global `sourceType` starts as `None`,
hence the `Option`; `convertedMsg` is `None` unless a conversion was
produced. -/
structure Line where
  messageType : Fin 7
  sourceType : Option Str
  nativeMsg : Str
  convertedMsg : Option Str
deriving Repr, DecidableEq

/-- A `Reporter` instance: its scroll-field widget name, its filter
dictionary and its buffered history.  (The class attributes
`cmdReporter`/`globalFilters` and the widget-creating `__init__` call are
host-side concerns not touched by the claims.) -/
structure Reporter where
  name : Str
  filters : Filters
  history : List Line
deriving Repr, DecidableEq

/-- `Reporter.lineFilter`: returns the text to display for a buffered
line, or `None` (modelled as `none`) when the line is filtered out.
`filterFlagNames[messageType]` is total here because `messageType`
ranges over the seven-value host enum, matching the list's length. -/
def Reporter.lineFilter (r : Reporter) (l : Line) : Option Str :=
  let fst := r.filters.filterSourceType
  if (fst.isEmpty || decide (l.sourceType = some fst))
      && !(r.filters.getFlag (filterFlagNames.getD l.messageType.val "")) then
    if r.filters.convertToPython && l.convertedMsg.isSome then l.convertedMsg
    else some l.nativeMsg
  else none

/-- The widget command
`'scrollField -e -insertText \"%s\" "%s";' % (output, name)`. -/
def insertTextCmd (output name : Str) : Str :=
  str "scrollField -e -insertText \"" ++ output ++ str "\" \"" ++ name ++ str "\";"

/-- The widget command
`'scrollField -e -text \"%s\" "%s";' % (output, name)`. -/
def textCmd (output name : Str) : Str :=
  str "scrollField -e -text \"" ++ output ++ str "\" \"" ++ name ++ str "\";"

/-- `Reporter.appendHistory`: append the line to the history, then, when
`lineFilter` accepts it, execute one `scrollField -e -insertText`
command.  The returned list is the trace of widget commands passed to
`executeCommand`. -/
def Reporter.appendHistory (r : Reporter) (l : Line) : Reporter × List Str :=
  let r2 : Reporter := { r with history := r.history ++ [l] }
  match r.lineFilter l with
  | some output => (r2, [insertTextCmd output r.name])
  | none => (r2, [])

/-- `Reporter.refreshHistory`: re-render the whole widget text.  The
`output += self.lineFilter(*line)` line raises `TypeError` when
`lineFilter` returns `None`, and the `except TypeError: pass` makes the
suppressed line contribute nothing. -/
def Reporter.refreshHistory (r : Reporter) : Reporter × List Str :=
  let output := (r.history.filterMap r.lineFilter).flatten
  (r, [textCmd output r.name])

/-- `Reporter.setFilters`: update the filter dictionary, then refresh. -/
def Reporter.setFilters (r : Reporter) (u : FilterUpdate) : Reporter × List Str :=
  let r2 : Reporter := { r with filters := r.filters.update u }
  r2.refreshHistory

/-!
## Module-level state and the command-output callback

`mel2pyStr` (from `pymel.mel2py`, outside this plugin file) and the
host's `maya.cmds.encodeString` are parameters: `m2p` returns `none`
when `mel2pyStr` raises (the `try/except: pass`), and `enc` is the
host's string encoder.
-/

/-- The module-level mutable state of the plugin: `callbackState`,
`sourceType`, and the registered reporters (the values of the global
`reporters` dictionary, in iteration order). -/
structure GlobalState where
  callbackState : Bool
  sourceType : Option Str
  reporters : List Reporter
deriving Repr, DecidableEq

/-- The message-type label dictionary of `cmdCallback`:
`{kInfo: 'Info', kWarning: 'Warning', kError: 'Error', kResult: 'Result'}`;
any other message type raises `KeyError` (modelled as `none`). -/
def msgLabel (m : Fin 7) : Option Str :=
  match m.val with
  | 2 => some (str "Info")
  | 3 => some (str "Warning")
  | 4 => some (str "Error")
  | 5 => some (str "Result")
  | _ => none

/-- The message-processing core of `cmdCallback` before encoding: given
the incoming native message, its type, and the previous module-level
`sourceType`, produce the new `sourceType`, the (possibly decorated)
native message, and the optional converted message. -/
def processMsg (m2p : Str → Option Str) (nativeMsg : Str) (messageType : Fin 7)
    (prev : Option Str) : Option Str × Str × Option Str :=
  if messageType = kHistory then
    if pyRfind nativeMsg ';' = (nativeMsg.length : Int) - 2 then
      (some kMel, nativeMsg, m2p nativeMsg)
    else
      (some kPython, nativeMsg, none)
  else
    match msgLabel messageType with
    | some label =>
      let labeled := label ++ str ": " ++ nativeMsg
      if prev = some kMel then
        (prev, str "// " ++ labeled ++ str " //\n",
         some (str "# " ++ labeled ++ str " #\n"))
      else
        (prev, str "# " ++ labeled ++ str " #\n", none)
    | none => (prev, nativeMsg, none)

/-- The line `[messageType, sourceType, nativeMsg, convertedMsg]` that
`cmdCallback` builds (after `encodeString`). -/
def buildLine (m2p : Str → Option Str) (enc : Str → Str) (nativeMsg : Str)
    (messageType : Fin 7) (prev : Option Str) : Line :=
  let res := processMsg m2p nativeMsg messageType prev
  { messageType := messageType
    sourceType := res.1
    nativeMsg := enc res.2.1
    convertedMsg := res.2.2.map enc }

/-- `cmdCallback(nativeMsg, messageType, data)`: drop the message when
`callbackState` is false; otherwise build the line and append it to the
history of every registered reporter.  The second component is the trace
of widget commands executed by the reporters. -/
def cmdCallback (m2p : Str → Option Str) (enc : Str → Str) (nativeMsg : Str)
    (messageType : Fin 7) (g : GlobalState) : GlobalState × List Str :=
  if g.callbackState = false then (g, [])
  else
    let st := (processMsg m2p nativeMsg messageType g.sourceType).1
    let line := buildLine m2p enc nativeMsg messageType g.sourceType
    let results := g.reporters.map (fun r => r.appendHistory line)
    ({ g with sourceType := st, reporters := results.map Prod.fst },
     (results.map Prod.snd).flatten)

/-- `Reporter.executeCommand`: set the module-level `callbackState` to
`False`, run the host command (during which the host may deliver the
given messages to `cmdCallback`), then set `callbackState` to `True`.
The second component is the trace of widget commands the deliveries
caused. -/
def executeCommandDuring (m2p : Str → Option Str) (enc : Str → Str)
    (msgs : List (Str × Fin 7)) (g : GlobalState) : GlobalState × List Str :=
  let g1 : GlobalState := { g with callbackState := false }
  let res := msgs.foldl
    (fun acc m =>
      let out := cmdCallback m2p enc m.1 m.2 acc.1
      (out.1, acc.2 ++ out.2))
    (g1, ([] : List Str))
  ({ res.1 with callbackState := true }, res.2)

/-- `Reporter.executeCommandResult`: identical `callbackState` handling,
and additionally returns the host's string result. -/
def executeCommandResultDuring (m2p : Str → Option Str) (enc : Str → Str)
    (msgs : List (Str × Fin 7)) (hostResult : Str) (g : GlobalState) :
    GlobalState × List Str × Str :=
  let g1 : GlobalState := { g with callbackState := false }
  let res := msgs.foldl
    (fun acc m =>
      let out := cmdCallback m2p enc m.1 m.2 acc.1
      (out.1, acc.2 ++ out.2))
    (g1, ([] : List Str))
  ({ res.1 with callbackState := true }, res.2, hostResult)

/-!
## Callback installation (scriptedCommand)
-/

/-- The module-level callback-installation state: the `messageIdSet`
flag and the number of command-output callbacks currently installed in
the host. -/
structure PluginState where
  messageIdSet : Bool
  installedCallbacks : Nat
deriving Repr, DecidableEq

/-- `scriptedCommand.createCallback`: attempt
`MCommandMessage.addCommandOutputCallback`; on success one callback is
installed and `messageIdSet` becomes `True`, on failure `messageIdSet`
becomes `False` and nothing is installed.  `success` is the host's
outcome. -/
def createCallback (success : Bool) (s : PluginState) : PluginState :=
  if success then
    { messageIdSet := true, installedCallbacks := s.installedCallbacks + 1 }
  else
    { s with messageIdSet := false }

/-- The callback-installation step at the end of `scriptedCommand.doIt`:
when `messageIdSet` is already true nothing happens, otherwise
`createCallback` runs. -/
def doItCallbackStep (success : Bool) (s : PluginState) : PluginState :=
  if s.messageIdSet then s else createCallback success s

/-- A sequence of `doIt` invocations with the host's success outcomes. -/
def runDoIts : List Bool → PluginState → PluginState
  | [], s => s
  | b :: bs, s => runDoIts bs (doItCallbackStep b s)

/-- The module state at plugin load: `messageIdSet = False`, no
callback installed. -/
def initialPluginState : PluginState :=
  { messageIdSet := false, installedCallbacks := 0 }

/-!
## ReporterDict and the shell environment helpers
-/

/-- `ReporterDict.__getitem__`: scan the stored `(key, value)` pairs in
iteration order and return the first value whose key's `'|'`-split ends
in the `'|'`-split of the lookup name (`keyBuf[-len(lookupBuf):] ==
lookupBuf`); a `KeyError` is modelled as `none`. -/
def reporterGetItem {α : Type} (lookupName : Str) : List (Str × α) → Option α
  | [] => none
  | (key, val) :: rest =>
    let lookupBuf := pySplit '|' lookupName
    let keyBuf := pySplit '|' key
    if pyNegSlice lookupBuf.length keyBuf = lookupBuf then some val
    else reporterGetItem lookupName rest

/-- `pymel.util.shell.appendEnv(env, value)`: `cur` is
`os.environ.get(env)` and the result is the new value of the variable.
`sep` is `os.path.pathsep`. -/
def appendEnv (sep : Char) (cur : Option Str) (value : Str) : Str :=
  match cur with
  | none => value
  | some s =>
    let splitEnv := pySplit sep s
    if value ∈ splitEnv then s
    else pyJoin sep (splitEnv ++ [value])

/-- `pymel.util.shell.prependEnv(env, value)`: as `appendEnv`, inserting
at the front. -/
def prependEnv (sep : Char) (cur : Option Str) (value : Str) : Str :=
  match cur with
  | none => value
  | some s =>
    let splitEnv := pySplit sep s
    if value ∈ splitEnv then s
    else pyJoin sep (value :: splitEnv)

/-!
## Concrete example states (used by witnesses and counterexamples)
-/

/-- A concrete `mel2pyStr` model: always converts successfully. -/
def m2pW : Str → Option Str := fun _ => some (str "p")

/-- A concrete `encodeString` model: the identity encoder. -/
def encW : Str → Str := fun s => s

/-- A freshly created reporter with default filters and empty history. -/
def rEx : Reporter :=
  { name := str "w", filters := defaultFilters, history := [] }

/-- Module state with one registered reporter while `callbackState` is
`False`. -/
def gDropEx : GlobalState :=
  { callbackState := false, sourceType := none, reporters := [rEx] }

/-- Module state with one registered reporter and `callbackState`
`True`. -/
def gLiveEx : GlobalState :=
  { callbackState := true, sourceType := none, reporters := [rEx] }

/-!
## String-utility lemmas
-/

theorem pySplit_ne_nil (sep : Char) (s : Str) : pySplit sep s ≠ [] := by
  cases s with
  | nil => simp [pySplit]
  | cons c rest =>
    unfold pySplit
    by_cases h : c = sep
    · simp [h]
    · simp only [h, if_false]
      cases pySplit sep rest <;> simp

theorem pyJoin_cons_cons (sep c : Char) (h : Str) (t : List Str) :
    pyJoin sep ((c :: h) :: t) = c :: pyJoin sep (h :: t) := by
  cases t <;> simp [pyJoin]

/-- `join` is a left inverse of `split`, for any string. -/
theorem pyJoin_pySplit (sep : Char) (s : Str) :
    pyJoin sep (pySplit sep s) = s := by
  induction s with
  | nil => simp [pySplit, pyJoin]
  | cons c rest ih =>
    unfold pySplit
    by_cases h : c = sep
    · simp only [h, if_true]
      obtain ⟨p, ps, hps⟩ : ∃ p ps, pySplit sep rest = p :: ps := by
        cases hx : pySplit sep rest with
        | nil => exact absurd hx (pySplit_ne_nil sep rest)
        | cons p ps => exact ⟨p, ps, rfl⟩
      rw [hps]
      have : pyJoin sep ([] :: p :: ps) = sep :: pyJoin sep (p :: ps) := by
        simp [pyJoin]
      rw [this, ← hps, ih]
    · simp only [h, if_false]
      obtain ⟨p, ps, hps⟩ : ∃ p ps, pySplit sep rest = p :: ps := by
        cases hx : pySplit sep rest with
        | nil => exact absurd hx (pySplit_ne_nil sep rest)
        | cons p ps => exact ⟨p, ps, rfl⟩
      rw [hps, pyJoin_cons_cons, ← hps, ih]

/-- Every part produced by `split` is free of the separator. -/
theorem mem_pySplit_sep_notMem (sep : Char) (s : Str) :
    ∀ p ∈ pySplit sep s, sep ∉ p := by
  induction s with
  | nil => simp [pySplit]
  | cons c rest ih =>
    intro p hp
    unfold pySplit at hp
    by_cases h : c = sep
    · simp only [h, if_true, List.mem_cons] at hp
      rcases hp with rfl | hp
      · simp
      · exact ih p hp
    · simp only [h, if_false] at hp
      cases hx : pySplit sep rest with
      | nil => exact absurd hx (pySplit_ne_nil sep rest)
      | cons q qs =>
        rw [hx] at hp
        rcases List.mem_cons.mp hp with rfl | hp
        · intro hmem
          rcases List.mem_cons.mp hmem with rfl | hmem
          · exact h rfl
          · exact ih q (hx ▸ List.mem_cons_self q qs) hmem
        · exact ih p (hx ▸ List.mem_cons_of_mem q hp)

/-- Splitting a separator-free string gives back the single part. -/
theorem pySplit_of_sep_notMem (sep : Char) (v : Str) (hv : sep ∉ v) :
    pySplit sep v = [v] := by
  induction v with
  | nil => simp [pySplit]
  | cons c rest ih =>
    have hc : c ≠ sep := fun h => hv (h ▸ List.mem_cons_self c rest)
    have hrest : sep ∉ rest := fun h => hv (List.mem_cons_of_mem c h)
    unfold pySplit
    simp only [hc, if_false, ih hrest]

theorem pySplit_append_sep (sep : Char) (x t : Str) (hx : sep ∉ x) :
    pySplit sep (x ++ sep :: t) = x :: pySplit sep t := by
  induction x with
  | nil => simp [pySplit]
  | cons c rest ih =>
    have hc : c ≠ sep := fun h => hx (h ▸ List.mem_cons_self c rest)
    have hrest : sep ∉ rest := fun h => hx (List.mem_cons_of_mem c h)
    have hrec := ih hrest
    rw [List.cons_append, pySplit.eq_def]
    simp only [hc, if_false, hrec]

/-- `split` is a left inverse of `join` on nonempty lists of
separator-free parts. -/
theorem pySplit_pyJoin (sep : Char) (parts : List Str)
    (hne : parts ≠ []) (hfree : ∀ p ∈ parts, sep ∉ p) :
    pySplit sep (pyJoin sep parts) = parts := by
  induction parts with
  | nil => exact absurd rfl hne
  | cons x xs ih =>
    cases xs with
    | nil =>
      simp only [pyJoin]
      exact pySplit_of_sep_notMem sep x (hfree x (List.mem_cons_self x []))
    | cons y ys =>
      have hx : sep ∉ x := hfree x (List.mem_cons_self x (y :: ys))
      have hrec : ∀ p ∈ y :: ys, sep ∉ p := fun p hp =>
        hfree p (List.mem_cons_of_mem x hp)
      have hjoin : pyJoin sep (x :: y :: ys) = x ++ sep :: pyJoin sep (y :: ys) := rfl
      rw [hjoin, pySplit_append_sep sep x _ hx, ih (by simp) hrec]

/-- The Python negative-slice condition `a[-len(b):] == b` is exactly
"`b` is a suffix of `a`", for nonempty `b`. -/
theorem pyNegSlice_eq_iff_suffix {α : Type} [DecidableEq α]
    (a b : List α) (hb : b ≠ []) :
    pyNegSlice b.length a = b ↔ b <:+ a := by
  have hlen : b.length ≠ 0 := fun h => hb (List.eq_nil_of_length_eq_zero h)
  unfold pyNegSlice
  simp only [hlen, if_false]
  by_cases hle : b.length ≤ a.length
  · rw [eq_comm]
    exact (@List.suffix_iff_eq_drop _ b a).symm
  · push_neg at hle
    have hdrop : a.length - b.length = 0 := Nat.sub_eq_zero_of_le (Nat.le_of_lt hle)
    rw [hdrop, List.drop_zero]
    constructor
    · intro h
      exact absurd (h ▸ rfl : a.length = b.length) (Nat.ne_of_lt hle)
    · intro h
      exact absurd h.length_le (Nat.not_le_of_lt hle)

/-!
## Helper lemmas
-/

theorem appendHistory_fst (r : Reporter) (l : Line) :
    (r.appendHistory l).1 = { r with history := r.history ++ [l] } := by
  unfold Reporter.appendHistory
  cases r.lineFilter l <;> rfl

theorem appendHistory_snd (r : Reporter) (l : Line) :
    (r.appendHistory l).2 =
      ((r.lineFilter l).map (fun out => insertTextCmd out r.name)).toList := by
  unfold Reporter.appendHistory
  cases h : r.lineFilter l <;> simp [h]

theorem cmdCallback_of_not_callbackState (m2p : Str → Option Str) (enc : Str → Str)
    (nativeMsg : Str) (messageType : Fin 7) (g : GlobalState)
    (h : g.callbackState = false) :
    cmdCallback m2p enc nativeMsg messageType g = (g, []) := by
  simp [cmdCallback, h]

theorem foldl_cmdCallback_frozen (m2p : Str → Option Str) (enc : Str → Str)
    (msgs : List (Str × Fin 7)) (g1 : GlobalState) (acc : List Str)
    (h : g1.callbackState = false) :
    msgs.foldl
      (fun acc m =>
        let out := cmdCallback m2p enc m.1 m.2 acc.1
        (out.1, acc.2 ++ out.2))
      (g1, acc) = (g1, acc) := by
  induction msgs generalizing acc with
  | nil => rfl
  | cons m ms ih =>
    rw [List.foldl_cons]
    simp only [cmdCallback_of_not_callbackState m2p enc m.1 m.2 g1 h,
      List.append_nil]
    exact ih acc

theorem runDoIts_invariant (outcomes : List Bool) (s : PluginState)
    (h : s.installedCallbacks = if s.messageIdSet then 1 else 0) :
    (runDoIts outcomes s).installedCallbacks =
      if (runDoIts outcomes s).messageIdSet then 1 else 0 := by
  induction outcomes generalizing s with
  | nil => simpa [runDoIts] using h
  | cons b bs ih =>
    unfold runDoIts
    apply ih
    by_cases hm : s.messageIdSet
    · simpa [doItCallbackStep, hm] using h
    · have h0 : s.installedCallbacks = 0 := by simpa [hm] using h
      cases b <;> simp [doItCallbackStep, createCallback, hm, h0]

/-!
## Claim theorems
-/

/-- Claim C3: `Reporter.lineFilter` returns the converted message when
the line passes the filters, `convertToPython` is set and a converted
message exists; the native message when the line passes otherwise; and
`none` exactly when a non-empty `filterSourceType` differs from the
line's `sourceType` or the suppress flag named by
`filterFlagNames[messageType]` is set. -/
theorem lineFilter_characterization (r : Reporter) (l : Line) :
    r.lineFilter l =
      if (r.filters.filterSourceType ≠ [] ∧
            l.sourceType ≠ some r.filters.filterSourceType) ∨
          r.filters.getFlag (filterFlagNames.getD l.messageType.val "") = true then
        none
      else if r.filters.convertToPython = true ∧ l.convertedMsg ≠ none then
        l.convertedMsg
      else
        some l.nativeMsg := by
  by_cases h1 : r.filters.filterSourceType = [] <;>
  by_cases h2 : l.sourceType = some r.filters.filterSourceType <;>
  by_cases h3 : r.filters.getFlag (filterFlagNames.getD l.messageType.val "") = true <;>
  by_cases h4 : r.filters.convertToPython = true <;>
  cases h5 : l.convertedMsg <;>
  simp_all [Reporter.lineFilter, List.isEmpty_iff]

/-- Claim C4: `Reporter.appendHistory` always appends the delivered line
to the history, including when the filters suppress it; existing entries
are preserved unchanged and exactly one entry is added. -/
theorem appendHistory_append_only (r : Reporter) (l : Line) :
    (r.appendHistory l).1.history = r.history ++ [l] ∧
    (r.appendHistory l).1.history.take r.history.length = r.history ∧
    (r.appendHistory l).1.history.length = r.history.length + 1 := by
  unfold Reporter.appendHistory
  cases h : r.lineFilter l <;> simp [List.take_left]

/-- Claim C7: when the line passes the filters, `Reporter.appendHistory`
executes exactly one `scrollField -e -insertText` widget command holding
the filtered text; when the line is suppressed it executes no widget
command, and in both cases the only state change is the history
append. -/
theorem appendHistory_frame (r : Reporter) (l : Line) :
    (r.appendHistory l).2 =
      ((r.lineFilter l).map (fun out => insertTextCmd out r.name)).toList ∧
    (r.appendHistory l).1 = { r with history := r.history ++ [l] } :=
  ⟨appendHistory_snd r l, appendHistory_fst r l⟩

/-- Claim C5: `Reporter.setFilters` updates the filter dictionary with
the given keyword arguments and re-renders the widget text to the
concatenation, in buffer order, of `lineFilter` applied to every line of
the full history, suppressed lines contributing nothing. -/
theorem setFilters_update_and_rerender (r : Reporter) (u : FilterUpdate) :
    (r.setFilters u).1.filters = r.filters.update u ∧
    (r.setFilters u).1.history = r.history ∧
    (r.setFilters u).1.name = r.name ∧
    (r.setFilters u).2 =
      [textCmd
        ((r.history.filterMap
          (Reporter.lineFilter { r with filters := r.filters.update u })).flatten)
        r.name] := by
  unfold Reporter.setFilters Reporter.refreshHistory
  simp

/-- Claim C6: across any sequence of `doIt` invocations starting from
plugin load, the callback-installation step installs the command-output
callback only when `messageIdSet` is false and `createCallback` sets it
on success, so at most one callback is ever installed at a time. -/
theorem doIt_at_most_one_callback (outcomes : List Bool) :
    (runDoIts outcomes initialPluginState).installedCallbacks ≤ 1 := by
  have h := runDoIts_invariant outcomes initialPluginState (by simp [initialPluginState])
  rw [h]
  by_cases hm : (runDoIts outcomes initialPluginState).messageIdSet <;> simp [hm]

/-- Claim C9: `ReporterDict.__getitem__` returns the value of the first
stored key (in iteration order) whose `'|'`-split ends in the
`'|'`-split of the lookup name, and yields `KeyError` (`none`) exactly
when no stored key has that suffix. -/
theorem reporterGetItem_first_suffix {α : Type} (d : List (Str × α)) (lookupName : Str) :
    reporterGetItem lookupName d =
      (d.find? (fun kv =>
        decide (pySplit '|' lookupName <:+ pySplit '|' kv.1))).map Prod.snd := by
  induction d with
  | nil => simp [reporterGetItem]
  | cons kv rest ih =>
    obtain ⟨key, val⟩ := kv
    have hiff := pyNegSlice_eq_iff_suffix (pySplit '|' key) (pySplit '|' lookupName)
      (pySplit_ne_nil '|' lookupName)
    by_cases h : pyNegSlice (pySplit '|' lookupName).length (pySplit '|' key) =
        pySplit '|' lookupName
    · simp [reporterGetItem, h, hiff.mp h]
    · have hns : ¬ (pySplit '|' lookupName <:+ pySplit '|' key) := fun hs => h (hiff.mpr hs)
      simp [reporterGetItem, h, hns, ih]

/-- Claim C1 (counterexample): a command-output message delivered while
the module-level `callbackState` is false is dropped, so the registered
reporter's history does not grow by one entry. -/
theorem cmdCallback_dropped_counterexample :
    gDropEx.reporters ≠ [] ∧
    gDropEx.reporters.map (fun r => r.history.length) = [0] ∧
    (cmdCallback m2pW encW (str "x") kDisplay gDropEx).1.reporters.map
      (fun r => r.history.length) = [0] := by
  decide

/-- Claim C1 (amended): for every command-output message delivered while
the module-level `callbackState` flag is true, `cmdCallback` builds one
line `[messageType, sourceType, nativeMsg, convertedMsg]` and appends it
to the history of every registered reporter, so each reporter's history
grows by exactly one entry. -/
theorem cmdCallback_appends_once (m2p : Str → Option Str) (enc : Str → Str)
    (nativeMsg : Str) (messageType : Fin 7) (g : GlobalState)
    (h : g.callbackState = true) :
    (cmdCallback m2p enc nativeMsg messageType g).1.reporters.map Reporter.history =
      g.reporters.map
        (fun r => r.history ++ [buildLine m2p enc nativeMsg messageType g.sourceType]) := by
  simp [cmdCallback, h, List.map_map, Function.comp, appendHistory_fst]

theorem cmdCallback_appends_once_witness :
    gLiveEx.callbackState = true ∧
    (cmdCallback m2pW encW (str "x") kDisplay gLiveEx).1.reporters.map Reporter.history =
      gLiveEx.reporters.map
        (fun r => r.history ++ [buildLine m2pW encW (str "x") kDisplay gLiveEx.sourceType]) :=
  ⟨rfl, cmdCallback_appends_once m2pW encW (str "x") kDisplay gLiveEx rfl⟩

/-- Claim C2: a history-type message is classified as mel — the new
module-level `sourceType` is `'mel'` and the line's converted message is
the attempted `mel2pyStr` conversion — exactly when the last `';'` of
the message occurs at index `len - 2`; every other history-type message
is classified as python and receives no converted message. -/
theorem history_message_classification (m2p : Str → Option Str) (enc : Str → Str)
    (nativeMsg : Str) (g : GlobalState) (h : g.callbackState = true) :
    (cmdCallback m2p enc nativeMsg kHistory g).1.sourceType =
      some (if pyRfind nativeMsg ';' = (nativeMsg.length : Int) - 2 then kMel
            else kPython) ∧
    buildLine m2p enc nativeMsg kHistory g.sourceType =
      { messageType := kHistory
        sourceType :=
          some (if pyRfind nativeMsg ';' = (nativeMsg.length : Int) - 2 then kMel
                else kPython)
        nativeMsg := enc nativeMsg
        convertedMsg :=
          if pyRfind nativeMsg ';' = (nativeMsg.length : Int) - 2 then
            (m2p nativeMsg).map enc
          else none } := by
  by_cases hc : pyRfind nativeMsg ';' = (nativeMsg.length : Int) - 2 <;>
    simp [cmdCallback, buildLine, processMsg, kHistory, h, hc]

theorem history_message_classification_witness :
    gLiveEx.callbackState = true ∧
    ((cmdCallback m2pW encW (str "x;") kHistory gLiveEx).1.sourceType =
      some (if pyRfind (str "x;") ';' = ((str "x;").length : Int) - 2 then kMel
            else kPython) ∧
    buildLine m2pW encW (str "x;") kHistory gLiveEx.sourceType =
      { messageType := kHistory
        sourceType :=
          some (if pyRfind (str "x;") ';' = ((str "x;").length : Int) - 2 then kMel
                else kPython)
        nativeMsg := encW (str "x;")
        convertedMsg :=
          if pyRfind (str "x;") ';' = ((str "x;").length : Int) - 2 then
            (m2pW (str "x;")).map encW
          else none }) :=
  ⟨rfl, history_message_classification m2pW encW (str "x;") gLiveEx rfl⟩

/-- Claim C8: while a reporter executes one of its own commands via
`executeCommand` or `executeCommandResult`, the module-level
`callbackState` flag is false and every message delivered to
`cmdCallback` in that window is dropped without touching any reporter's
history or widget; `callbackState` is set back to true when the command
completes. -/
theorem executeCommand_window (m2p : Str → Option Str) (enc : Str → Str)
    (msgs : List (Str × Fin 7)) (hostResult : Str) (g : GlobalState)
    (nativeMsg : Str) (messageType : Fin 7) (g2 : GlobalState)
    (h : g2.callbackState = false) :
    cmdCallback m2p enc nativeMsg messageType g2 = (g2, []) ∧
    executeCommandDuring m2p enc msgs g = ({ g with callbackState := true }, []) ∧
    executeCommandResultDuring m2p enc msgs hostResult g =
      ({ g with callbackState := true }, [], hostResult) := by
  have hfold := foldl_cmdCallback_frozen m2p enc msgs { g with callbackState := false } [] rfl
  refine ⟨cmdCallback_of_not_callbackState m2p enc nativeMsg messageType g2 h, ?_, ?_⟩
  · simp only [executeCommandDuring, hfold]
  · simp only [executeCommandResultDuring, hfold]

theorem executeCommand_window_witness :
    gDropEx.callbackState = false ∧
    (cmdCallback m2pW encW (str "x") kDisplay gDropEx = (gDropEx, []) ∧
    executeCommandDuring m2pW encW [(str "y", kHistory)] gLiveEx =
      ({ gLiveEx with callbackState := true }, []) ∧
    executeCommandResultDuring m2pW encW [(str "y", kHistory)] (str "res") gLiveEx =
      ({ gLiveEx with callbackState := true }, [], str "res")) :=
  ⟨rfl, executeCommand_window m2pW encW [(str "y", kHistory)] (str "res") gLiveEx
    (str "x") kDisplay gDropEx rfl⟩

/-- Claim C10 (counterexample): with a value that itself contains the
path separator, `appendEnv` is not idempotent — a second application
duplicates the components. -/
theorem appendEnv_not_idempotent_counterexample :
    appendEnv ':' (some (appendEnv ':' none (str "a:b"))) (str "a:b") ≠
      appendEnv ':' none (str "a:b") := by
  decide

theorem appendEnv_adds_last (sep : Char) (value s : Str) (hfree : sep ∉ value)
    (hm : value ∉ pySplit sep s) :
    pySplit sep (appendEnv sep (some s) value) = pySplit sep s ++ [value] := by
  simp only [appendEnv, hm, if_false]
  exact pySplit_pyJoin sep (pySplit sep s ++ [value]) (by simp)
    (by
      intro p hp
      rcases List.mem_append.mp hp with hp1 | hp1
      · exact mem_pySplit_sep_notMem sep s p hp1
      · rcases List.mem_singleton.mp hp1 with rfl
        exact hfree)

theorem prependEnv_adds_first (sep : Char) (value s : Str) (hfree : sep ∉ value)
    (hm : value ∉ pySplit sep s) :
    pySplit sep (prependEnv sep (some s) value) = value :: pySplit sep s := by
  simp only [prependEnv, hm, if_false]
  exact pySplit_pyJoin sep (value :: pySplit sep s) (by simp)
    (by
      intro p hp
      rcases List.mem_cons.mp hp with rfl | hp1
      · exact hfree
      · exact mem_pySplit_sep_notMem sep s p hp1)

/-- Claim C10 (amended): for a value free of the path separator,
`appendEnv` and `prependEnv` set the variable to the value when it is
unset, leave it unchanged when the value is already a component, append
(respectively prepend) the value as a new component preserving the
existing ones otherwise, and both operations are idempotent. -/
theorem appendEnv_prependEnv_spec (sep : Char) (value s : Str) (cur : Option Str)
    (hfree : sep ∉ value) :
    (appendEnv sep none value = value ∧ prependEnv sep none value = value) ∧
    (value ∈ pySplit sep s →
      appendEnv sep (some s) value = s ∧ prependEnv sep (some s) value = s) ∧
    (value ∉ pySplit sep s →
      pySplit sep (appendEnv sep (some s) value) = pySplit sep s ++ [value] ∧
      pySplit sep (prependEnv sep (some s) value) = value :: pySplit sep s) ∧
    (appendEnv sep (some (appendEnv sep cur value)) value = appendEnv sep cur value ∧
      prependEnv sep (some (prependEnv sep cur value)) value =
        prependEnv sep cur value) := by
  refine ⟨⟨rfl, rfl⟩, ?_, ?_, ?_, ?_⟩
  · intro hm
    exact ⟨by simp [appendEnv, hm], by simp [prependEnv, hm]⟩
  · intro hm
    exact ⟨appendEnv_adds_last sep value s hfree hm,
      prependEnv_adds_first sep value s hfree hm⟩
  · cases cur with
    | none =>
      show appendEnv sep (some value) value = value
      simp [appendEnv, pySplit_of_sep_notMem sep value hfree]
    | some t =>
      by_cases hm : value ∈ pySplit sep t
      · have h1 : appendEnv sep (some t) value = t := by simp [appendEnv, hm]
        rw [h1]
        simp [appendEnv, hm]
      · have hA := appendEnv_adds_last sep value t hfree hm
        generalize hX : appendEnv sep (some t) value = X at hA ⊢
        have hmem : value ∈ pySplit sep X := by
          rw [hA]
          exact List.mem_append_right _ (by simp)
        simp [appendEnv, hmem]
  · cases cur with
    | none =>
      show prependEnv sep (some value) value = value
      simp [prependEnv, pySplit_of_sep_notMem sep value hfree]
    | some t =>
      by_cases hm : value ∈ pySplit sep t
      · have h1 : prependEnv sep (some t) value = t := by simp [prependEnv, hm]
        rw [h1]
        simp [prependEnv, hm]
      · have hA := prependEnv_adds_first sep value t hfree hm
        generalize hX : prependEnv sep (some t) value = X at hA ⊢
        have hmem : value ∈ pySplit sep X := by
          rw [hA]
          exact List.mem_cons_self value _
        simp [prependEnv, hmem]

theorem appendEnv_prependEnv_spec_witness :
    (':' ∉ str "abc") ∧
    ((appendEnv ':' none (str "abc") = str "abc" ∧
        prependEnv ':' none (str "abc") = str "abc") ∧
      (str "abc" ∈ pySplit ':' (str "x:y") →
        appendEnv ':' (some (str "x:y")) (str "abc") = str "x:y" ∧
        prependEnv ':' (some (str "x:y")) (str "abc") = str "x:y") ∧
      (str "abc" ∉ pySplit ':' (str "x:y") →
        pySplit ':' (appendEnv ':' (some (str "x:y")) (str "abc")) =
          pySplit ':' (str "x:y") ++ [str "abc"] ∧
        pySplit ':' (prependEnv ':' (some (str "x:y")) (str "abc")) =
          str "abc" :: pySplit ':' (str "x:y")) ∧
      (appendEnv ':' (some (appendEnv ':' none (str "abc"))) (str "abc") =
          appendEnv ':' none (str "abc") ∧
        prependEnv ':' (some (prependEnv ':' none (str "abc"))) (str "abc") =
          prependEnv ':' none (str "abc"))) :=
  ⟨by decide, appendEnv_prependEnv_spec ':' (str "abc") (str "x:y") none (by decide)⟩
